import Mathlib

/-!
# Verification of the spatial text extraction engine

A shallow embedding, in Lean 4, of the batch text-extraction engine of the
`vector-tag-table` repository, together with theorems settling the claims of
its specification.

Numbers: the TypeScript code computes on IEEE doubles; the embedding uses `ℚ`
with exact arithmetic.  `Math.sqrt` is modelled by `Rat.sqrt`, which agrees
with the double computation on perfect squares (every concrete input used
below is one).  Strings are Lean `String`s (lists of characters).

External collaborators (the pdf.js decoder) are modelled as an oracle
`DecodeOracle` mapping the bytes of a buffer and a page number to either a
decoded page (viewport height plus raw text fragments) or a decode error.
A byte buffer (`ArrayBuffer`) carries its bytes and a detached flag; the
decoding library's consumption of buffers only matters through
`cloneArrayBuffer` / `isArrayBufferDetached`, embedded below.

Effects: the sources are `async` but strictly sequential, so every function
is embedded as a pure function; promise rejection is modelled with `Except`.
The diagnostic `extractionLogger` only records step events (it never throws
and no behavior depends on it), so its calls are dropped from the embedding.
-/

/-- JavaScript whitespace (`\s` in a regex, also the set used by
`String.prototype.trim`): space, tab, line terminators, and the Unicode
space separators. -/
def wsb (c : Char) : Bool :=
  c == ' ' || c == '\t' || c == '\n' || c == '\r' ||
  c.val == 0x000b || c.val == 0x000c || c.val == 0x00a0 || c.val == 0x1680 ||
  (decide (0x2000 ≤ c.val) && decide (c.val ≤ 0x200a)) ||
  c.val == 0x2028 || c.val == 0x2029 || c.val == 0x202f || c.val == 0x205f ||
  c.val == 0x3000 || c.val == 0xfeff

/-- JavaScript `Math.round`: round half toward positive infinity. -/
def jsRound (q : ℚ) : ℤ := ⌊q + 1/2⌋

/-- Floor square root of a natural number by bounded linear search
(`natSqrtGo n k fuel` answers the largest `j ≤ k + fuel` with `j * j ≤ n`,
given `k * k ≤ n`). -/
def natSqrtGo (n : Nat) : Nat → Nat → Nat
  | k, 0 => k
  | k, fuel + 1 => if (k + 1) * (k + 1) ≤ n then natSqrtGo n (k + 1) fuel else k

def natSqrtFl (n : Nat) : Nat := natSqrtGo n 0 n

/-- Model of JavaScript `Math.sqrt` on `ℚ`: the floor square roots of
numerator and denominator.  On perfect squares — every concrete input in
this file — this is the exact square root, agreeing with the double
computation. -/
def ratSqrt (q : ℚ) : ℚ :=
  mkRat (Int.ofNat (natSqrtFl q.num.toNat)) (natSqrtFl q.den)

/-- One decoded text run as reported by the pdf.js collaborator
(`Fragment = {str, transform: number[6], width, fontName?, dir?}` in §6 of
the spec).  `str` is empty for marked-content items that carry no text;
`width`/`fontName` are `Option` because marked-content items lack them. -/
structure Transform where
  a : ℚ
  b : ℚ
  c : ℚ
  d : ℚ
  e : ℚ
  f : ℚ
deriving DecidableEq

structure Fragment where
  str : String
  transform : Transform
  width : Option ℚ
  fontName : Option String
deriving DecidableEq

/-- The result of decoding page `n` of a document: the viewport height at
scale 1.0 together with the text content items. -/
structure PageContent where
  height : ℚ
  items : List Fragment
deriving DecidableEq

/-- The external pdf.js decoder: bytes and a 1-based page number to either a
decoded page or a thrown error (message).  It sees only the byte content of
the (cloned) buffer handed to it. -/
def DecodeOracle : Type := List Nat → Nat → Except String PageContent

/-- A JavaScript `ArrayBuffer`: byte content plus whether the buffer has been
detached (invalidated by a consuming operation). -/
structure ArrayBuffer where
  bytes : List Nat
  detached : Bool
deriving DecidableEq

/-- `TextElement` of `types.ts`. -/
structure ElemPos where
  x : ℚ
  y : ℚ
deriving DecidableEq

structure TextElement where
  text : String
  position : ElemPos
  width : ℚ
  height : ℚ
  fontSize : ℚ
  fontName : String
deriving DecidableEq

/-- A tag's region, `{x, y, width, height}` (`types.ts`). -/
structure Region where
  x : ℚ
  y : ℚ
  width : ℚ
  height : ℚ
deriving DecidableEq

/-- `Tag` of `types.ts`. -/
structure Tag where
  id : String
  name : String
  color : String
  region : Region
deriving DecidableEq

/-- `PDFDocument` of `types.ts` (`data?: ArrayBuffer`); the `file : File`
handle plays no role in extraction and is omitted. -/
structure PDFDocument where
  id : String
  name : String
  data : Option ArrayBuffer
deriving DecidableEq

/-- `ExtractionResult` of `types.ts`; `textElements` and `errorCode` are
optional fields. -/
structure ExtractionResult where
  id : String
  documentId : String
  fileName : String
  pageNumber : Nat
  tagId : String
  tagName : String
  extractedText : String
  textElements : Option (List TextElement) := none
  errorCode : Option String := none
deriving DecidableEq

/-! ## safeBufferUtils.ts -/

/-- The runtime `TypeError` message thrown when a typed-array view is
constructed over a detached buffer (fixed by the JS engine, not by this
repository). -/
def detachedBufferMessage : String :=
  "Cannot perform Construct on a detached ArrayBuffer"

/-- `cloneArrayBuffer` (safeBufferUtils.ts lines 11-19): allocate a fresh
buffer and copy the bytes through a `Uint8Array` view.  Constructing the view
over a detached source throws; otherwise the clone is an independent,
non-detached buffer with the same bytes. -/
def cloneArrayBuffer (buffer : ArrayBuffer) : Except String ArrayBuffer :=
  if buffer.detached then .error detachedBufferMessage
  else .ok { bytes := buffer.bytes, detached := false }

/-- `isArrayBufferDetached` (safeBufferUtils.ts lines 36-45, and the local
copy in `documentAnalyzer`): probe by constructing `new Uint8Array(buffer, 0,
1)`.  The probe throws — and the function answers `true` — when the buffer is
detached, and also when a live buffer has byte length `0` (the one-byte view
is out of range). -/
def isArrayBufferDetached (buffer : ArrayBuffer) : Bool :=
  buffer.detached || buffer.bytes.isEmpty

/-! ## The cleanup chain

Every extraction path ends with the same inline chain
```js
text.replace(/\s+/g, ' ').replace(/(\n\s*){3,}/g, '\n\n').trim()
```
embedded as `cleanupExtractedText` below, one list-of-characters pass per
`replace`/`trim`.
-/

/-- `.replace(/\s+/g, ' ')`: every maximal run of whitespace characters is
replaced by a single space (the space is emitted at the end of the run; the
output is the same). -/
def collapseWs : List Char → List Char
  | [] => []
  | [c] => if wsb c then [' '] else [c]
  | a :: b :: t =>
    if wsb a then
      if wsb b then collapseWs (b :: t) else ' ' :: collapseWs (b :: t)
    else a :: collapseWs (b :: t)

/-- `.replace(/(\n\s*){3,}/g, '\n\n')`: a match starts at a newline and — by
the backtracking semantics of the pattern — consumes the rest of the maximal
whitespace run starting there, provided that run contains at least three
newlines; it is replaced by exactly two newlines.  A whitespace run with
fewer than three newlines admits no match anywhere inside it.  The `fuel`
argument (always instantiated with the length of the list, which bounds the
recursion depth) makes the recursion structural. -/
def collapseNlFuel : Nat → List Char → List Char
  | _, [] => []
  | 0, l => l
  | fuel + 1, c :: rest =>
    if c = '\n' then
      let run := List.takeWhile wsb (c :: rest)
      let after := List.dropWhile wsb (c :: rest)
      if 3 ≤ run.count '\n' then '\n' :: '\n' :: collapseNlFuel fuel after
      else run ++ collapseNlFuel fuel after
    else c :: collapseNlFuel fuel rest

def collapseNl (l : List Char) : List Char := collapseNlFuel l.length l

/-- `String.prototype.trim`: drop leading and trailing whitespace. -/
def trimChars (l : List Char) : List Char :=
  ((l.dropWhile wsb).reverse.dropWhile wsb).reverse

def jsTrim (s : String) : String := ⟨trimChars s.data⟩

/-- The three-step cleanup chain applied to reconstructed text. -/
def cleanupExtractedText (s : String) : String :=
  ⟨trimChars (collapseNl (collapseWs s.data))⟩

/-! ## textElement.ts — the Page Fragment Extractor -/

/-- The per-fragment computation of `extractTextElementsFromPage`
(textElement.ts lines 40-63): skip-free part of the loop body.  `fontSize`
on the element is `Math.round`ed; `height` keeps the unrounded value;
`width` and `fontName` use the JS `||` defaults (absent — and, for
`fontName`, empty — values fall back). -/
def fragmentToElement (pageHeight : ℚ) (it : Fragment) : TextElement :=
  let tx := it.transform
  let fontSize := ratSqrt (tx.c * tx.c + tx.d * tx.d)
  { text := it.str
    position := { x := tx.e, y := pageHeight - tx.f }
    width := match it.width with | none => 0 | some w => w
    height := fontSize
    fontSize := (jsRound fontSize : ℚ)
    fontName := match it.fontName with
      | none => "unknown"
      | some s => if s = "" then "unknown" else s }

/-- `extractTextElementsFromPage` (textElement.ts lines 13-70): clone the
buffer, decode it, and map every fragment with non-empty `str` to a
`TextElement`; any error (a detached input buffer, or a decode failure) is
caught and yields `[]`. -/
def extractTextElementsFromPage (oracle : DecodeOracle) (data : ArrayBuffer)
    (pageNumber : Nat) : List TextElement :=
  match cloneArrayBuffer data with
  | .error _ => []
  | .ok safeData =>
    match oracle safeData.bytes pageNumber with
    | .error _ => []
    | .ok page =>
      (page.items.filter (fun it => it.str ≠ "")).map
        (fragmentToElement page.height)

/-! ## extractionUtils.ts — Filter, Reconstructor, Normalizer -/

/-- `filterElementsByRegion` (extractionUtils.ts lines 70-80); the identical
inline filter appears in `processTagExtraction` and in the legacy
orchestrators. -/
def filterElementsByRegion (elements : List TextElement) (region : Region) :
    List TextElement :=
  elements.filter (fun element =>
    region.x ≤ element.position.x ∧
    element.position.x ≤ region.x + region.width ∧
    region.y ≤ element.position.y ∧
    element.position.y ≤ region.y + region.height)

/-- The sort comparator (extractionUtils.ts lines 15-26): same line when the
y difference is within half the larger height, then by x; otherwise by y. -/
def jsCompare (a b : TextElement) : ℚ :=
  let lineHeight := max a.height b.height
  let yThreshold := lineHeight * (1/2)
  if |a.position.y - b.position.y| ≤ yThreshold then
    a.position.x - b.position.x
  else a.position.y - b.position.y

/-- Straight insertion used to model `Array.prototype.sort`: `x` goes after
every element comparing strictly before it and before the first element it
ties or precedes, which keeps the original order of ties (stability). -/
def insertByCompare (x : TextElement) : List TextElement → List TextElement
  | [] => [x]
  | y :: t => if jsCompare x y > 0 then y :: insertByCompare x t
              else x :: y :: t

/-- `[...elements].sort(comparator)`: ECMAScript requires `sort` to be
stable, so it is modelled as a stable (insertion) sort.  The comparator is
not transitively consistent (spec §9), so engines may produce different
orders for some inputs; no theorem below depends on the produced order. -/
def sortTextElements (elements : List TextElement) : List TextElement :=
  elements.foldr insertByCompare []

/-- The concatenation loop (extractionUtils.ts lines 33-55, and the identical
inline loops of `processTagExtraction` and the legacy orchestrators):
`acc` is the text built so far, `prev` the previously emitted element
(the loop's `lastElement`; its `lastY` always equals
`lastElement.position.y`). -/
def combineGo (prev : TextElement) : List TextElement → String → String
  | [], acc => acc
  | cur :: rest, acc =>
    let yDiff := |cur.position.y - prev.position.y|
    let sep :=
      if yDiff > cur.height * (5/2) then "\n\n"
      else if yDiff > cur.height * (6/5) then "\n"
      else if cur.position.x - (prev.position.x + prev.width) >
              cur.width * (3/10) then " "
      else ""
    combineGo cur rest (acc ++ sep ++ cur.text)

def combineElements : List TextElement → String
  | [] => ""
  | e :: rest => combineGo e rest e.text

/-- `formatTextElements` (extractionUtils.ts lines 9-62): empty input gives
`''`; otherwise sort, concatenate, clean up. -/
def formatTextElements (elements : List TextElement) : String :=
  if elements.length = 0 then ""
  else cleanupExtractedText (combineElements (sortTextElements elements))

/-! ## extractionProcessor.ts — per-tag and per-document processing -/

def mkResultId (docId : String) (pageNum : Nat) (tagId : String) : String :=
  docId ++ "-" ++ toString pageNum ++ "-" ++ tagId

/-- `processTagExtraction` (extractionProcessor.ts lines 266-389).  The
filter, sort, concatenation and cleanup bodies are textually identical to
the helpers above and are embedded through them. -/
def processTagExtraction (document : PDFDocument) (tag : Tag) (pageNum : Nat)
    (allTextElements : List TextElement) : ExtractionResult :=
  let resultId := mkResultId document.id pageNum tag.id
  let textElementsInRegion := filterElementsByRegion allTextElements tag.region
  if textElementsInRegion.length = 0 then
    { id := resultId
      documentId := document.id
      fileName := document.name
      pageNumber := pageNum
      tagId := tag.id
      tagName := tag.name
      extractedText := "[No text found in this region]"
      textElements := some []
      errorCode := some "EMPTY_REGION" }
  else
    let sortedElements := sortTextElements textElementsInRegion
    let extractedText := cleanupExtractedText (combineElements sortedElements)
    { id := resultId
      documentId := document.id
      fileName := document.name
      pageNumber := pageNum
      tagId := tag.id
      tagName := tag.name
      extractedText := if extractedText = "" then "[No text found]"
                       else extractedText
      textElements := some sortedElements
      errorCode := none }

/-- An error placeholder result (the shape shared by every error branch). -/
def errorResult (document : PDFDocument) (tag : Tag) (pageNum : Nat)
    (text code : String) : ExtractionResult :=
  { id := mkResultId document.id pageNum tag.id
    documentId := document.id
    fileName := document.name
    pageNumber := pageNum
    tagId := tag.id
    tagName := tag.name
    extractedText := text
    errorCode := some code }

/-- `processDocumentExtraction` (extractionProcessor.ts lines 130-256).
The inner `try` around the detached check and the first clone turns a
detached buffer into `BUFFER_DETACHED` placeholders; the outer `try` (whose
`catch` produces `PROCESSING_ERROR` placeholders) guards the second clone —
the only remaining throwing operation, and one that can no longer throw
because its argument is a fresh clone. -/
def processDocumentExtraction (oracle : DecodeOracle) (document : PDFDocument)
    (tags : List Tag) (pageNum : Nat) : List ExtractionResult :=
  match document.data with
  | none =>
    tags.map (fun tag => errorResult document tag pageNum
      "[Error processing document: No data available]" "NO_DATA")
  | some data =>
    match cloneArrayBuffer data with
    | .error _ =>
      tags.map (fun tag => errorResult document tag pageNum
        "[Error processing document: Buffer was detached]" "BUFFER_DETACHED")
    | .ok documentData =>
      match cloneArrayBuffer documentData with
      | .error msg =>
        tags.map (fun tag => errorResult document tag pageNum
          ("[Error processing document: " ++ msg ++ "]") "PROCESSING_ERROR")
      | .ok clonedBufferForExtraction =>
        let allTextElements :=
          extractTextElementsFromPage oracle clonedBufferForExtraction pageNum
        if allTextElements.length = 0 then
          tags.map (fun tag => errorResult document tag pageNum
            "[No text found in document - may be scanned/image-based PDF]"
            "NO_TEXT_CONTENT")
        else
          tags.map (fun tag =>
            processTagExtraction document tag pageNum allTextElements)

/-- `TextProcessingOptions` (textExtraction.ts). -/
structure TextProcessingOptions where
  preserveFormatting : Bool := true
  cleanupText : Bool := true
  ocrFallback : Bool := true
  debug : Bool := false
deriving DecidableEq

/-- `extractTextFromRegion` (textExtraction.ts lines 68-115, the version that
clones, extracts elements, filters by region, formats, cleans).  The only
operation inside the `try` that can throw is the initial clone of a detached
input buffer (``extractTextElementsFromPage`` catches its own errors), so the
`catch` branch reports the fixed detached-buffer message. -/
def extractTextFromRegion (oracle : DecodeOracle) (data : ArrayBuffer)
    (pageNumber : Nat) (region : Region)
    (options : TextProcessingOptions) : String :=
  match cloneArrayBuffer data with
  | .error msg => "[Error extracting text: " ++ msg ++ "]"
  | .ok safeData =>
    let textElements := extractTextElementsFromPage oracle safeData pageNumber
    let elementsInRegion := filterElementsByRegion textElements region
    if elementsInRegion.length = 0 then
      if options.ocrFallback then
        "[OCR processing would be applied here for scanned documents]"
      else ""
    else
      let extractedText :=
        if options.preserveFormatting then formatTextElements elementsInRegion
        else String.intercalate " " (elementsInRegion.map (fun el => el.text))
      let extractedText :=
        if options.cleanupText then cleanupExtractedText extractedText
        else extractedText
      jsTrim extractedText

/-! ## documentAnalyzer.ts — validation and the scanned classifier -/

structure ValidationResult where
  isValid : Bool
  errorMessage : Option String := none
  errorCode : Option String := none
deriving DecidableEq

/-- `validateDocumentData` (documentAnalyzer.ts lines 120-158).  The
argument is `Option` because the source guards against an undefined
document; the orchestrator always passes a present one.  The source's final
`try/catch` (`VALIDATION_ERROR`) is unreachable: `isArrayBufferDetached`
never throws (it catches its own probe failure). -/
def validateDocumentData : Option PDFDocument → ValidationResult
  | none =>
    { isValid := false
      errorMessage := some "Document is undefined"
      errorCode := some "INVALID_DOCUMENT" }
  | some document =>
    match document.data with
    | none =>
      { isValid := false
        errorMessage := some "Document has no data"
        errorCode := some "NO_DATA" }
    | some data =>
      if isArrayBufferDetached data then
        { isValid := false
          errorMessage := some "Document data is detached"
          errorCode := some "BUFFER_DETACHED" }
      else { isValid := true }

/-- `isProbablyScannedPdf` (documentAnalyzer.ts lines 95-113): fewer than 5
text content items on page 1; any error yields `false`. -/
def isProbablyScannedPdf (oracle : DecodeOracle) (data : ArrayBuffer) : Bool :=
  match cloneArrayBuffer data with
  | .error _ => false
  | .ok safeData =>
    match oracle safeData.bytes 1 with
    | .error _ => false
    | .ok page => page.items.length < 5

/-! ## batchExtraction.ts (refactored) — the Batch Extraction Orchestrator -/

/-- The placeholder pushed for each tag when validation fails
(batchExtraction.ts lines 37-48); `${validation.errorMessage}` renders
`undefined` when the message is absent. -/
def validationFailureResult (document : PDFDocument) (tag : Tag)
    (validation : ValidationResult) : ExtractionResult :=
  { id := document.id ++ "-1-" ++ tag.id
    documentId := document.id
    fileName := document.name
    pageNumber := 1
    tagId := tag.id
    tagName := tag.name
    extractedText :=
      "[Error: " ++ validation.errorMessage.getD "undefined" ++ "]"
    errorCode := validation.errorCode }

/-- The per-document loop body of `extractTextFromAllDocuments`
(batchExtraction.ts lines 26-76), generalized over the awaited
per-document call: `proc document tags pageNum` models
`await processDocumentExtraction(document, tags, pageNum)`, whose promise
may in principle reject (`Except.error`); the `catch` turns a rejection
into `BATCH_PROCESSING_ERROR` placeholders.  The concrete orchestrator
below instantiates `proc` with the (total) `processDocumentExtraction`. -/
def extractAllWith
    (proc : PDFDocument → List Tag → Nat → Except String (List ExtractionResult))
    (documents : List PDFDocument) (tags : List Tag) : List ExtractionResult :=
  documents.flatMap (fun document =>
    let validation := validateDocumentData (some document)
    if validation.isValid then
      match proc document tags 1 with
      | .ok documentResults => documentResults
      | .error msg =>
        tags.map (fun tag => errorResult document tag 1
          ("[Error processing document: " ++ msg ++ "]")
          "BATCH_PROCESSING_ERROR")
    else
      tags.map (fun tag => validationFailureResult document tag validation))

/-- `extractTextFromAllDocuments` (batchExtraction.ts lines 12-83 of the
refactored module, the one importing `validateDocumentData` and
`processDocumentExtraction`). -/
def extractTextFromAllDocuments (oracle : DecodeOracle)
    (documents : List PDFDocument) (tags : List Tag) : List ExtractionResult :=
  extractAllWith (fun document tags pageNum =>
      .ok (processDocumentExtraction oracle document tags pageNum))
    documents tags

/-! ## src/lib/pdf/batchExtraction.ts — the legacy orchestrator

The repository also retains an earlier `extractTextFromAllDocuments`
(src/lib/pdf/batchExtraction.ts; the copies in safeBufferUtils.ts and
pdfUtils.ts share its skip behavior).  It skips a document with no `data`
with a bare `continue` — no placeholder results.  Its clone
(`new Uint8Array(document.data).buffer`) throws inside the `try` when the
buffer is detached, producing `PROCESSING_ERROR` placeholders, and its
per-tag body is textually identical to `processTagExtraction`. -/
def legacyExtractTextFromAllDocuments (oracle : DecodeOracle)
    (documents : List PDFDocument) (tags : List Tag) : List ExtractionResult :=
  documents.flatMap (fun document =>
    match document.data with
    | none => []
    | some data =>
      if data.detached then
        tags.map (fun tag => errorResult document tag 1
          ("[Error processing document: " ++ detachedBufferMessage ++ "]")
          "PROCESSING_ERROR")
      else
        let dataClone : ArrayBuffer := { bytes := data.bytes, detached := false }
        let allTextElements := extractTextElementsFromPage oracle dataClone 1
        if allTextElements.length = 0 then
          tags.map (fun tag => errorResult document tag 1
            "[No text found in document - may be scanned/image-based PDF]"
            "NO_TEXT_CONTENT")
        else
          tags.map (fun tag =>
            processTagExtraction document tag 1 allTextElements))

/-! ## Properties of the cleanup chain -/

/-- Adjacent characters are never both whitespace. -/
def noWsPair (a b : Char) : Prop := ¬(wsb a = true ∧ wsb b = true)

theorem eq_space_of_mem_collapseWs :
    ∀ l : List Char, ∀ c ∈ collapseWs l, wsb c = true → c = ' '
  | [], c, h, _ => by simp [collapseWs] at h
  | [a], c, h, hws => by
    by_cases ha : wsb a = true
    · simp [collapseWs, ha] at h
      simpa using h
    · simp [collapseWs, ha] at h
      subst h
      exact absurd hws ha
  | a :: b :: t, c, h, hws => by
    by_cases ha : wsb a = true
    · by_cases hb : wsb b = true
      · simp only [collapseWs, if_pos ha, if_pos hb] at h
        exact eq_space_of_mem_collapseWs (b :: t) c h hws
      · simp only [collapseWs, if_pos ha, if_neg hb, List.mem_cons] at h
        rcases h with hc | hm
        · exact hc
        · exact eq_space_of_mem_collapseWs (b :: t) c hm hws
    · simp only [collapseWs, if_neg ha, List.mem_cons] at h
      rcases h with hc | hm
      · subst hc; exact absurd hws ha
      · exact eq_space_of_mem_collapseWs (b :: t) c hm hws

theorem newline_not_mem_collapseWs (l : List Char) : '\n' ∉ collapseWs l := by
  intro h
  have := eq_space_of_mem_collapseWs l '\n' h (by decide)
  simp at this

theorem head?_collapseWs_cons (b : Char) (t : List Char)
    (hb : ¬ wsb b = true) : (collapseWs (b :: t)).head? = some b := by
  match t with
  | [] => simp [collapseWs, hb]
  | c :: t' => simp [collapseWs, hb]

theorem chain'_collapseWs : ∀ l : List Char, List.Chain' noWsPair (collapseWs l)
  | [] => by simp [collapseWs]
  | [a] => by by_cases h : wsb a = true <;> simp [collapseWs, h]
  | a :: b :: t => by
    by_cases ha : wsb a = true
    · by_cases hb : wsb b = true
      · simpa only [collapseWs, ha, hb, if_true] using chain'_collapseWs (b :: t)
      · simp only [collapseWs, ha, hb, if_true, if_false]
        refine List.chain'_cons'.mpr ⟨?_, chain'_collapseWs (b :: t)⟩
        intro y hy
        rw [head?_collapseWs_cons b t hb] at hy
        cases hy
        exact fun hp => hb hp.2
    · simp only [collapseWs, ha, if_false]
      refine List.chain'_cons'.mpr ⟨?_, chain'_collapseWs (b :: t)⟩
      intro y _
      exact fun hp => ha hp.1

theorem collapseWs_eq_self :
    ∀ l : List Char, (∀ c ∈ l, wsb c = true → c = ' ') →
      List.Chain' noWsPair l → collapseWs l = l
  | [], _, _ => rfl
  | [a], h1, _ => by
    by_cases ha : wsb a = true
    · have := h1 a (by simp) ha
      simp [collapseWs, ha, this]
    · simp [collapseWs, ha]
  | a :: b :: t, h1, h2 => by
    have hab : noWsPair a b := (List.chain'_cons.mp h2).1
    have ih := collapseWs_eq_self (b :: t)
      (fun c hc hw => h1 c (by simp [hc]) hw) (List.chain'_cons.mp h2).2
    by_cases ha : wsb a = true
    · have hb : ¬ wsb b = true := fun hb => hab ⟨ha, hb⟩
      have ha' : a = ' ' := h1 a (by simp) ha
      simp [collapseWs, ha, hb, ih, ha']
    · simp [collapseWs, ha, ih]

theorem collapseNlFuel_eq_self :
    ∀ (n : Nat) (l : List Char), '\n' ∉ l → collapseNlFuel n l = l := by
  intro n
  induction n with
  | zero => intro l _; cases l <;> rfl
  | succ m ih =>
    intro l h
    cases l with
    | nil => rfl
    | cons c rest =>
      have hc : ¬ c = '\n' := fun e => h (by simp [e])
      have hrest : '\n' ∉ rest := fun hm => h (by simp [hm])
      simp [collapseNlFuel, hc, ih rest hrest]

theorem collapseNl_eq_self {l : List Char} (h : '\n' ∉ l) : collapseNl l = l :=
  collapseNlFuel_eq_self l.length l h

/-- After the first `replace` kills every newline, the second `replace` of
the cleanup chain is the identity. -/
theorem cleanupExtractedText_eq (s : String) :
    cleanupExtractedText s = ⟨trimChars (collapseWs s.data)⟩ := by
  unfold cleanupExtractedText
  rw [collapseNl_eq_self (newline_not_mem_collapseWs _)]

theorem head?_dropWhile_not (p : Char → Bool) :
    ∀ (l : List Char) (c : Char), (l.dropWhile p).head? = some c → p c = false
  | [], c, h => by simp [List.dropWhile] at h
  | a :: t, c, h => by
    by_cases ha : p a = true
    · rw [List.dropWhile_cons, if_pos ha] at h
      exact head?_dropWhile_not p t c h
    · rw [List.dropWhile_cons, if_neg ha] at h
      cases h
      simpa using ha

theorem dropWhile_eq_self_of_head (p : Char → Bool) (l : List Char)
    (h : ∀ c, l.head? = some c → p c = false) : l.dropWhile p = l := by
  cases l with
  | nil => rfl
  | cons a t =>
    rw [List.dropWhile_cons, if_neg (by simp [h a rfl])]

theorem getLast?_of_suffix {l₁ l₂ : List Char} (h : l₁ <:+ l₂)
    (hne : l₁ ≠ []) : l₁.getLast? = l₂.getLast? := by
  obtain ⟨t, rfl⟩ := h
  exact (List.getLast?_append_of_ne_nil t hne).symm

theorem mem_trimChars {c : Char} {l : List Char} (h : c ∈ trimChars l) :
    c ∈ l := by
  unfold trimChars at h
  rw [List.mem_reverse] at h
  have h2 := (List.dropWhile_suffix wsb).sublist.subset h
  rw [List.mem_reverse] at h2
  exact (List.dropWhile_suffix wsb).sublist.subset h2

theorem trimChars_getLast (l : List Char) :
    ∀ c, (trimChars l).getLast? = some c → wsb c = false := by
  intro c h
  unfold trimChars at h
  rw [List.getLast?_reverse] at h
  exact head?_dropWhile_not wsb _ c h

theorem trimChars_head (l : List Char) :
    ∀ c, (trimChars l).head? = some c → wsb c = false := by
  intro c h
  unfold trimChars at h
  rcases hz : (l.dropWhile wsb).reverse.dropWhile wsb with _ | ⟨z, zs⟩
  · rw [hz] at h; simp at h
  · rw [hz] at h
    have hne : (l.dropWhile wsb).reverse.dropWhile wsb ≠ [] := by simp [hz]
    have hsuf : (l.dropWhile wsb).reverse.dropWhile wsb <:+ (l.dropWhile wsb).reverse :=
      List.dropWhile_suffix wsb
    have hlast : ((l.dropWhile wsb).reverse.dropWhile wsb).getLast? =
        ((l.dropWhile wsb).reverse).getLast? := getLast?_of_suffix hsuf hne
    rw [List.getLast?_reverse] at hlast
    rw [← hz, List.head?_reverse, hlast] at h
    exact head?_dropWhile_not wsb l c h

theorem trimChars_eq_self (l : List Char)
    (h1 : ∀ c, l.head? = some c → wsb c = false)
    (h2 : ∀ c, l.getLast? = some c → wsb c = false) : trimChars l = l := by
  unfold trimChars
  rw [dropWhile_eq_self_of_head wsb l h1]
  rw [dropWhile_eq_self_of_head wsb l.reverse
    (fun c hc => h2 c (by rwa [List.head?_reverse] at hc))]
  exact List.reverse_reverse l

theorem trimChars_idem (l : List Char) :
    trimChars (trimChars l) = trimChars l :=
  trimChars_eq_self _ (trimChars_head l) (trimChars_getLast l)

theorem chain'_trimChars {l : List Char} (h : List.Chain' noWsPair l) :
    List.Chain' noWsPair (trimChars l) := by
  unfold trimChars
  have flip_iff : ∀ m : List Char, List.Chain' (flip noWsPair) m ↔ List.Chain' noWsPair m := by
    intro m
    constructor <;>
      exact fun hm => hm.imp (fun _ _ hab hp => hab ⟨hp.2, hp.1⟩)
  refine List.chain'_reverse.mpr ((flip_iff _).mpr ?_)
  refine List.Chain'.suffix ?_ (List.dropWhile_suffix wsb)
  refine List.chain'_reverse.mpr ((flip_iff _).mpr ?_)
  exact List.Chain'.suffix h (List.dropWhile_suffix wsb)

theorem append_ne_empty_left (a b : String) (ha : a.length ≠ 0) :
    a ++ b ≠ "" := by
  intro h
  have h2 : a.length + b.length = 0 := by
    simpa [String.length_append] using congrArg String.length h
  exact ha (Nat.eq_zero_of_add_eq_zero_right h2)

theorem newline_not_mem_cleanupExtractedText (s : String) :
    '\n' ∉ (cleanupExtractedText s).data := by
  rw [cleanupExtractedText_eq]
  intro h
  exact newline_not_mem_collapseWs _ (mem_trimChars h)

theorem newline_not_mem_jsTrim {s : String} (h : '\n' ∉ s.data) :
    '\n' ∉ (jsTrim s).data := fun hm => h (mem_trimChars hm)

theorem fallback_ne_empty (s fb : String) (hfb : fb ≠ "") :
    (if s = "" then fb else s) ≠ "" := by
  split
  · exact hfb
  · assumption

theorem fallback_no_newline (s fb : String) (h1 : '\n' ∉ fb.data)
    (h2 : '\n' ∉ s.data) : '\n' ∉ (if s = "" then fb else s).data := by
  split <;> assumption

/-- Per-tag results are either the `EMPTY_REGION` placeholder or a success
record with non-empty, newline-free text. -/
theorem processTagExtraction_spec (d : PDFDocument) (tag : Tag)
    (pageNum : Nat) (elems : List TextElement) :
    ((processTagExtraction d tag pageNum elems).errorCode =
        some "EMPTY_REGION" ∧
      (processTagExtraction d tag pageNum elems).extractedText =
        "[No text found in this region]") ∨
    ((processTagExtraction d tag pageNum elems).errorCode = none ∧
      (processTagExtraction d tag pageNum elems).extractedText ≠ "" ∧
      '\n' ∉ (processTagExtraction d tag pageNum elems).extractedText.data) := by
  simp only [processTagExtraction]
  split
  · exact Or.inl ⟨rfl, rfl⟩
  · exact Or.inr ⟨rfl, fallback_ne_empty _ _ (by decide),
      fallback_no_newline _ _ (by decide)
        (newline_not_mem_cleanupExtractedText _)⟩

/-- Case analysis for membership in a per-document result list. -/
theorem mem_processDocumentExtraction {oracle : DecodeOracle}
    {d : PDFDocument} {tags : List Tag} {pageNum : Nat} {r : ExtractionResult}
    (h : r ∈ processDocumentExtraction oracle d tags pageNum) :
    (∃ tag ∈ tags, r = errorResult d tag pageNum
      "[Error processing document: No data available]" "NO_DATA") ∨
    (∃ tag ∈ tags, r = errorResult d tag pageNum
      "[Error processing document: Buffer was detached]" "BUFFER_DETACHED") ∨
    (∃ tag ∈ tags, ∃ msg, r = errorResult d tag pageNum
      ("[Error processing document: " ++ msg ++ "]") "PROCESSING_ERROR") ∨
    (∃ tag ∈ tags, r = errorResult d tag pageNum
      "[No text found in document - may be scanned/image-based PDF]"
      "NO_TEXT_CONTENT") ∨
    (∃ tag ∈ tags, ∃ elems, r = processTagExtraction d tag pageNum elems) := by
  simp only [processDocumentExtraction] at h
  split at h
  · obtain ⟨tag, htag, rfl⟩ := List.mem_map.mp h
    exact Or.inl ⟨tag, htag, rfl⟩
  · split at h
    · obtain ⟨tag, htag, rfl⟩ := List.mem_map.mp h
      exact Or.inr (Or.inl ⟨tag, htag, rfl⟩)
    · split at h
      · obtain ⟨tag, htag, rfl⟩ := List.mem_map.mp h
        exact Or.inr (Or.inr (Or.inl ⟨tag, htag, _, rfl⟩))
      · split at h
        · obtain ⟨tag, htag, rfl⟩ := List.mem_map.mp h
          exact Or.inr (Or.inr (Or.inr (Or.inl ⟨tag, htag, rfl⟩)))
        · obtain ⟨tag, htag, rfl⟩ := List.mem_map.mp h
          exact Or.inr (Or.inr (Or.inr (Or.inr ⟨tag, htag, _, rfl⟩)))

theorem length_processDocumentExtraction (oracle : DecodeOracle)
    (d : PDFDocument) (tags : List Tag) (pageNum : Nat) :
    (processDocumentExtraction oracle d tags pageNum).length = tags.length := by
  simp only [processDocumentExtraction]
  repeat' split
  all_goals simp

theorem extractAllWith_nil (proc) (tags : List Tag) :
    extractAllWith proc [] tags = [] := rfl

theorem extractAllWith_cons (proc) (d : PDFDocument)
    (rest : List PDFDocument) (tags : List Tag) :
    extractAllWith proc (d :: rest) tags =
      (let validation := validateDocumentData (some d)
       if validation.isValid then
         match proc d tags 1 with
         | .ok documentResults => documentResults
         | .error msg =>
           tags.map (fun tag => errorResult d tag 1
             ("[Error processing document: " ++ msg ++ "]")
             "BATCH_PROCESSING_ERROR")
       else tags.map (fun tag => validationFailureResult d tag validation)) ++
      extractAllWith proc rest tags := by
  unfold extractAllWith
  rw [List.flatMap_cons]

/-- Case analysis for membership in the orchestrator's output. -/
theorem mem_extractAllWith {proc} {docs : List PDFDocument} {tags : List Tag}
    {r : ExtractionResult} (h : r ∈ extractAllWith proc docs tags) :
    (∃ d ∈ docs, ∃ tag ∈ tags,
      ¬(validateDocumentData (some d)).isValid = true ∧
      r = validationFailureResult d tag (validateDocumentData (some d))) ∨
    (∃ d ∈ docs, ∃ rs, proc d tags 1 = .ok rs ∧ r ∈ rs) ∨
    (∃ d ∈ docs, ∃ tag ∈ tags, ∃ msg, proc d tags 1 = .error msg ∧
      r = errorResult d tag 1
        ("[Error processing document: " ++ msg ++ "]")
        "BATCH_PROCESSING_ERROR") := by
  unfold extractAllWith at h
  obtain ⟨d, hd, hr⟩ := List.mem_flatMap.mp h
  by_cases hv : (validateDocumentData (some d)).isValid = true
  · rw [if_pos hv] at hr
    rcases hp : proc d tags 1 with msg | rs
    · rw [hp] at hr
      obtain ⟨tag, htag, rfl⟩ := List.mem_map.mp hr
      exact Or.inr (Or.inr ⟨d, hd, tag, htag, msg, hp, rfl⟩)
    · rw [hp] at hr
      exact Or.inr (Or.inl ⟨d, hd, rs, hp, hr⟩)
  · rw [if_neg hv] at hr
    obtain ⟨tag, htag, rfl⟩ := List.mem_map.mp hr
    exact Or.inl ⟨d, hd, tag, htag, hv, rfl⟩

/-- The two reachable validation failures for a present document. -/
theorem validateDocumentData_some_cases (d : PDFDocument) :
    (validateDocumentData (some d)).isValid = true ∨
    (validateDocumentData (some d) =
      { isValid := false, errorMessage := some "Document has no data",
        errorCode := some "NO_DATA" }) ∨
    (validateDocumentData (some d) =
      { isValid := false, errorMessage := some "Document data is detached",
        errorCode := some "BUFFER_DETACHED" }) := by
  rcases hd : d.data with _ | data
  · exact Or.inr (Or.inl (by simp [validateDocumentData, hd]))
  · by_cases hdet : isArrayBufferDetached data = true
    · exact Or.inr (Or.inr (by simp [validateDocumentData, hd, hdet]))
    · exact Or.inl (by simp [validateDocumentData, hd, hdet])

theorem mkResultId_one (s t : String) : mkResultId s 1 t = s ++ "-1-" ++ t := by
  apply String.ext
  have h1 : (toString (1 : Nat)).data = ['1'] := rfl
  simp [mkResultId, String.data_append, h1]

theorem extractAllWith_cons_invalid (proc) (d : PDFDocument)
    (rest : List PDFDocument) (tags : List Tag)
    (h : ¬(validateDocumentData (some d)).isValid = true) :
    extractAllWith proc (d :: rest) tags =
      tags.map (fun tag =>
        validationFailureResult d tag (validateDocumentData (some d))) ++
      extractAllWith proc rest tags := by
  rw [extractAllWith_cons]
  simp only [if_neg h]

theorem extractTextFromAllDocuments_cons_valid (oracle : DecodeOracle)
    (d : PDFDocument) (rest : List PDFDocument) (tags : List Tag)
    (h : (validateDocumentData (some d)).isValid = true) :
    extractTextFromAllDocuments oracle (d :: rest) tags =
      processDocumentExtraction oracle d tags 1 ++
      extractTextFromAllDocuments oracle rest tags := by
  unfold extractTextFromAllDocuments
  rw [extractAllWith_cons]
  simp only [if_pos h]

/-! ## Concrete scenario material -/

/-- A fragment whose element lands at `(20, 30)` with height `10` on a
height-100 page. -/
def sampleFragment : Fragment :=
  { str := "HELLO", transform := ⟨10, 0, 0, 10, 20, 70⟩,
    width := some 30, fontName := some "F1" }

/-- A decoder that yields one text fragment on every page. -/
def sampleOracle : DecodeOracle :=
  fun _ _ => .ok { height := 100, items := [sampleFragment] }

/-- A decoder that decodes pages with no text fragments at all. -/
def emptyOracle : DecodeOracle :=
  fun _ _ => .ok { height := 100, items := [] }

def validBuffer : ArrayBuffer := { bytes := [1, 2, 3], detached := false }

def docNoData : PDFDocument := { id := "d1", name := "one.pdf", data := none }

def docValid : PDFDocument :=
  { id := "d2", name := "two.pdf", data := some validBuffer }

/-- A tag whose region `(0, 0, 100, 100)` contains `sampleFragment`'s
element anchor `(20, 30)`. -/
def wideTag : Tag :=
  { id := "t1", name := "tag1", color := "red", region := ⟨0, 0, 100, 100⟩ }

/-! ## The claims -/

/-- **C5**: the spatial region filter returns exactly the elements whose
top-left anchor lies (inclusively) inside the rectangle, and it preserves
the input order (its output is a sublist of its input). -/
theorem c5_theorem :
    (∀ (elements : List TextElement) (region : Region) (e : TextElement),
      e ∈ filterElementsByRegion elements region ↔
        e ∈ elements ∧
        (region.x ≤ e.position.x ∧ e.position.x ≤ region.x + region.width ∧
         region.y ≤ e.position.y ∧
         e.position.y ≤ region.y + region.height)) ∧
    (∀ (elements : List TextElement) (region : Region),
      (filterElementsByRegion elements region).Sublist elements) := by
  constructor
  · intro elements region e
    simp [filterElementsByRegion, List.mem_filter, and_assoc]
  · intro elements region
    exact List.filter_sublist elements

/-- **C6**: in the reconstructor's concatenation step, each element after
the first is preceded by a paragraph break when `yDiff > height × 2.5`, else
a line break when `yDiff > height × 1.2`, else a space exactly when
`x`-gap `> width × 0.3`; in particular `yDiff = 15` with `height = 10`
yields a line break and not a paragraph break. -/
theorem c6_theorem :
    (∀ (prev cur : TextElement) (rest : List TextElement) (acc : String),
      combineGo prev (cur :: rest) acc =
        combineGo cur rest (acc ++
          (if |cur.position.y - prev.position.y| > cur.height * (5/2)
           then "\n\n"
           else if |cur.position.y - prev.position.y| > cur.height * (6/5)
           then "\n"
           else if cur.position.x - (prev.position.x + prev.width) >
                   cur.width * (3/10)
           then " " else "") ++ cur.text)) ∧
    (∀ a b : TextElement,
      combineElements [a, b] = a.text ++
        (if |b.position.y - a.position.y| > b.height * (5/2) then "\n\n"
         else if |b.position.y - a.position.y| > b.height * (6/5) then "\n"
         else if b.position.x - (a.position.x + a.width) > b.width * (3/10)
         then " " else "") ++ b.text) ∧
    (∀ a b : TextElement, |b.position.y - a.position.y| = 15 → b.height = 10 →
      combineElements [a, b] = a.text ++ "\n" ++ b.text) := by
  refine ⟨fun prev cur rest acc => rfl, fun a b => rfl, ?_⟩
  intro a b hy hh
  show combineGo a [b] a.text = _
  unfold combineGo
  rw [hy, hh]
  norm_num
  rfl

/-- **C7**: the text normalization chain (collapse whitespace runs to one
space, collapse 3+ newline groups to two newlines, trim) is idempotent. -/
theorem c7_theorem (s : String) :
    cleanupExtractedText (cleanupExtractedText s) = cleanupExtractedText s := by
  rw [cleanupExtractedText_eq s]
  have hws : ∀ c ∈ trimChars (collapseWs s.data), wsb c = true → c = ' ' :=
    fun c hc => eq_space_of_mem_collapseWs _ c (mem_trimChars hc)
  have hch : List.Chain' noWsPair (trimChars (collapseWs s.data)) :=
    chain'_trimChars (chain'_collapseWs _)
  have hnl : '\n' ∉ trimChars (collapseWs s.data) :=
    fun h => newline_not_mem_collapseWs _ (mem_trimChars h)
  unfold cleanupExtractedText
  rw [show (⟨trimChars (collapseWs s.data)⟩ : String).data =
        trimChars (collapseWs s.data) from rfl]
  rw [collapseWs_eq_self _ hws hch, collapseNl_eq_self hnl, trimChars_idem]

/-- **C1** counterexample: scenario C (first document missing its buffer,
second valid, one tag) run through the legacy orchestrator of
src/lib/pdf/batchExtraction.ts — one of the two `extractTextFromAllDocuments`
implementations the claim covers, and the skip behavior shared by the
pdfUtils.ts entry point: the no-buffer document produces no placeholder, so
the batch returns 1 result, not 2. -/
theorem c1_counterexample :
    docNoData.data = none ∧
    (legacyExtractTextFromAllDocuments sampleOracle [docNoData, docValid]
      [wideTag]).length = 1 ∧
    (legacyExtractTextFromAllDocuments sampleOracle [docNoData, docValid]
      [wideTag]).map (fun r => r.errorCode) = [none] := by
  refine ⟨rfl, ?_, ?_⟩
  · with_unfolding_all decide
  · with_unfolding_all decide

/-- **C1** (amended): the refactored orchestrator (the
`extractTextFromAllDocuments` that validates through `validateDocumentData`)
emits one `NO_DATA` placeholder per tag for a document with no byte buffer
and continues, and scenario C returns 2 results there; the legacy
orchestrator of src/lib/pdf/batchExtraction.ts instead skips such a document
silently (see the counterexample). -/
theorem c1_theorem :
    (∀ (oracle : DecodeOracle) (tags : List Tag) (doc : PDFDocument)
        (rest : List PDFDocument), doc.data = none →
      extractTextFromAllDocuments oracle (doc :: rest) tags =
        tags.map (fun tag =>
          { id := doc.id ++ "-1-" ++ tag.id
            documentId := doc.id
            fileName := doc.name
            pageNumber := 1
            tagId := tag.id
            tagName := tag.name
            extractedText := "[Error: Document has no data]"
            errorCode := some "NO_DATA" }) ++
        extractTextFromAllDocuments oracle rest tags) ∧
    (extractTextFromAllDocuments sampleOracle [docNoData, docValid]
      [wideTag]).length = 2 := by
  constructor
  · intro oracle tags doc rest hdoc
    have hv : validateDocumentData (some doc) =
        { isValid := false, errorMessage := some "Document has no data",
          errorCode := some "NO_DATA" } := by
      simp [validateDocumentData, hdoc]
    unfold extractTextFromAllDocuments
    rw [extractAllWith_cons_invalid _ _ _ _ (by rw [hv]; simp)]
    congr 1
    apply List.map_congr_left
    intro tag _
    rw [hv]
    simp [validationFailureResult]
  · with_unfolding_all decide

/-- **C1** witness: the amended theorem applied to scenario C. -/
theorem c1_witness :
    docNoData.data = none ∧
    extractTextFromAllDocuments sampleOracle (docNoData :: [docValid])
      [wideTag] =
      [wideTag].map (fun tag =>
        { id := docNoData.id ++ "-1-" ++ tag.id
          documentId := docNoData.id
          fileName := docNoData.name
          pageNumber := 1
          tagId := tag.id
          tagName := tag.name
          extractedText := "[Error: Document has no data]"
          errorCode := some "NO_DATA" }) ++
      extractTextFromAllDocuments sampleOracle [docValid] [wideTag] :=
  ⟨rfl, c1_theorem.1 sampleOracle [wideTag] docNoData [docValid] rfl⟩

/-- **C2** counterexample: a page yielding exactly 1 fragment (fewer than 5)
is not short-circuited to `NO_TEXT_CONTENT`: the tag containing the fragment
succeeds (`errorCode` absent). -/
theorem c2_counterexample :
    sampleOracle validBuffer.bytes 1 =
      .ok { height := 100, items := [sampleFragment] } ∧
    ([sampleFragment] : List Fragment).length < 5 ∧
    (extractTextFromAllDocuments sampleOracle [docValid] [wideTag]).map
      (fun r => r.errorCode) = [none] := by
  refine ⟨rfl, by decide, ?_⟩
  with_unfolding_all decide

/-- **C2** (amended): the orchestrator's scanned short-circuit triggers
exactly when page 1 yields zero text elements — every tag then receives the
`NO_TEXT_CONTENT` placeholder regardless of its region; a page with 1–4
fragments is processed normally (`isProbablyScannedPdf`, which uses the
`< 5` threshold, is not consulted by the orchestrator). -/
theorem c2_theorem :
    (∀ (oracle : DecodeOracle) (tags : List Tag) (doc : PDFDocument)
        (rest : List PDFDocument) (buf : ArrayBuffer),
      doc.data = some buf → isArrayBufferDetached buf = false →
      extractTextElementsFromPage oracle
        { bytes := buf.bytes, detached := false } 1 = [] →
      extractTextFromAllDocuments oracle (doc :: rest) tags =
        tags.map (fun tag =>
          { id := doc.id ++ "-1-" ++ tag.id
            documentId := doc.id
            fileName := doc.name
            pageNumber := 1
            tagId := tag.id
            tagName := tag.name
            extractedText :=
              "[No text found in document - may be scanned/image-based PDF]"
            errorCode := some "NO_TEXT_CONTENT" }) ++
        extractTextFromAllDocuments oracle rest tags) ∧
    (extractTextFromAllDocuments sampleOracle [docValid] [wideTag]).map
      (fun r => r.errorCode) = [none] := by
  constructor
  · intro oracle tags doc rest buf hdata hdet hempty
    have hdet' : buf.detached = false := by
      simp [isArrayBufferDetached] at hdet
      exact hdet.1
    have hv : (validateDocumentData (some doc)).isValid = true := by
      simp [validateDocumentData, hdata, hdet]
    rw [extractTextFromAllDocuments_cons_valid _ _ _ _ hv]
    congr 1
    have hclone : cloneArrayBuffer buf =
        .ok { bytes := buf.bytes, detached := false } := by
      simp [cloneArrayBuffer, hdet']
    have hclone2 : cloneArrayBuffer { bytes := buf.bytes, detached := false } =
        .ok { bytes := buf.bytes, detached := false } := rfl
    simp only [processDocumentExtraction, hdata, hclone, hclone2, hempty,
      List.length_nil, if_pos rfl]
    apply List.map_congr_left
    intro tag _
    simp [errorResult, mkResultId_one]
  · with_unfolding_all decide

/-- **C2** witness: the amended theorem applied to a document whose page
decodes to zero fragments. -/
theorem c2_witness :
    docValid.data = some validBuffer ∧
    isArrayBufferDetached validBuffer = false ∧
    extractTextElementsFromPage emptyOracle
      { bytes := validBuffer.bytes, detached := false } 1 = [] ∧
    extractTextFromAllDocuments emptyOracle (docValid :: []) [wideTag] =
      [wideTag].map (fun tag =>
        { id := docValid.id ++ "-1-" ++ tag.id
          documentId := docValid.id
          fileName := docValid.name
          pageNumber := 1
          tagId := tag.id
          tagName := tag.name
          extractedText :=
            "[No text found in document - may be scanned/image-based PDF]"
          errorCode := some "NO_TEXT_CONTENT" }) ++
      extractTextFromAllDocuments emptyOracle [] [wideTag] :=
  ⟨rfl, by decide, rfl,
   c2_theorem.1 emptyOracle [wideTag] docValid [] validBuffer rfl (by decide)
     rfl⟩

/-- **C3**: every result of the (validating) batch orchestrator either has
no `errorCode` or carries one of the six codes of the closed taxonomy. -/
theorem c3_theorem (oracle : DecodeOracle) (docs : List PDFDocument)
    (tags : List Tag) (r : ExtractionResult)
    (h : r ∈ extractTextFromAllDocuments oracle docs tags) :
    r.errorCode = none ∨ r.errorCode = some "NO_DATA" ∨
    r.errorCode = some "BUFFER_DETACHED" ∨
    r.errorCode = some "NO_TEXT_CONTENT" ∨
    r.errorCode = some "EMPTY_REGION" ∨
    r.errorCode = some "PROCESSING_ERROR" ∨
    r.errorCode = some "BATCH_PROCESSING_ERROR" := by
  rcases mem_extractAllWith h with
    ⟨d, _, tag, _, hv, rfl⟩ | ⟨d, _, rs, hok, hmem⟩ | ⟨d, _, tag, _, msg, _, rfl⟩
  · rcases validateDocumentData_some_cases d with hval | hval | hval
    · exact absurd hval hv
    · right; left; simp [validationFailureResult, hval]
    · right; right; left; simp [validationFailureResult, hval]
  · have hrs : rs = processDocumentExtraction oracle d tags 1 := by
      simp only [Except.ok.injEq] at hok
      exact hok.symm
    subst hrs
    rcases mem_processDocumentExtraction hmem with
      ⟨tag, _, rfl⟩ | ⟨tag, _, rfl⟩ | ⟨tag, _, msg, rfl⟩ | ⟨tag, _, rfl⟩ |
      ⟨tag, _, elems, rfl⟩
    · right; left; simp [errorResult]
    · right; right; left; simp [errorResult]
    · right; right; right; right; right; left; simp [errorResult]
    · right; right; right; left; simp [errorResult]
    · rcases processTagExtraction_spec d tag 1 elems with ⟨hec, _⟩ | ⟨hec, _, _⟩
      · right; right; right; right; left; exact hec
      · left; exact hec
  · right; right; right; right; right; right; simp [errorResult]

/-- The `NO_DATA` placeholder produced for `docNoData` in the sample batch. -/
def noDataSampleResult : ExtractionResult :=
  validationFailureResult docNoData wideTag (validateDocumentData (some docNoData))

/-- **C3** witness. -/
theorem c3_witness :
    noDataSampleResult ∈
      extractTextFromAllDocuments sampleOracle [docNoData] [wideTag] ∧
    (noDataSampleResult.errorCode = none ∨
     noDataSampleResult.errorCode = some "NO_DATA" ∨
     noDataSampleResult.errorCode = some "BUFFER_DETACHED" ∨
     noDataSampleResult.errorCode = some "NO_TEXT_CONTENT" ∨
     noDataSampleResult.errorCode = some "EMPTY_REGION" ∨
     noDataSampleResult.errorCode = some "PROCESSING_ERROR" ∨
     noDataSampleResult.errorCode = some "BATCH_PROCESSING_ERROR") :=
  ⟨by decide, c3_theorem sampleOracle [docNoData] [wideTag] noDataSampleResult
    (by decide)⟩

/-- **C4**: the batch is total — every call returns exactly
`documents × tags` results, so a failure on document `i` never suppresses
documents `i+1..n` — and a rejected per-document step is caught and
converted to one `BATCH_PROCESSING_ERROR` placeholder per tag while the
remaining documents are still processed. -/
theorem c4_theorem :
    (∀ (oracle : DecodeOracle) (docs : List PDFDocument) (tags : List Tag),
      (extractTextFromAllDocuments oracle docs tags).length =
        docs.length * tags.length) ∧
    (∀ (proc : PDFDocument → List Tag → Nat →
          Except String (List ExtractionResult))
        (d : PDFDocument) (rest : List PDFDocument) (tags : List Tag)
        (msg : String),
      (validateDocumentData (some d)).isValid = true →
      proc d tags 1 = .error msg →
      extractAllWith proc (d :: rest) tags =
        tags.map (fun tag => errorResult d tag 1
          ("[Error processing document: " ++ msg ++ "]")
          "BATCH_PROCESSING_ERROR") ++
        extractAllWith proc rest tags) := by
  constructor
  · intro oracle docs tags
    induction docs with
    | nil => simp [extractTextFromAllDocuments, extractAllWith]
    | cons d rest ih =>
      by_cases hv : (validateDocumentData (some d)).isValid = true
      · rw [extractTextFromAllDocuments_cons_valid _ _ _ _ hv]
        simp [List.length_append, length_processDocumentExtraction, ih,
          Nat.succ_mul, Nat.add_comm]
      · unfold extractTextFromAllDocuments at ih ⊢
        rw [extractAllWith_cons_invalid _ _ _ _ hv]
        simp [List.length_append, ih, Nat.succ_mul, Nat.add_comm]
  · intro proc d rest tags msg hv herr
    rw [extractAllWith_cons]
    simp only [if_pos hv, herr]

/-- A per-document step that always rejects, exercising the `catch`. -/
def failingProc :
    PDFDocument → List Tag → Nat → Except String (List ExtractionResult) :=
  fun _ _ _ => .error "decode failed"

/-- **C4** witness. -/
theorem c4_witness :
    (validateDocumentData (some docValid)).isValid = true ∧
    failingProc docValid [wideTag] 1 = .error "decode failed" ∧
    extractAllWith failingProc (docValid :: [docNoData]) [wideTag] =
      [wideTag].map (fun tag => errorResult docValid tag 1
        ("[Error processing document: " ++ "decode failed" ++ "]")
        "BATCH_PROCESSING_ERROR") ++
      extractAllWith failingProc [docNoData] [wideTag] :=
  ⟨by decide, rfl,
   c4_theorem.2 failingProc docValid [docNoData] [wideTag] "decode failed"
     (by decide) rfl⟩

/-- A fragment whose transform scale column is `(1.5, 2)`, so
`sqrt(1.5² + 2²) = 2.5` exactly. -/
def c8Fragment : Fragment :=
  { str := "A", transform := ⟨1, 0, mkRat 3 2, 2, 10, 20⟩,
    width := some 5, fontName := none }

def c8Oracle : DecodeOracle :=
  fun _ _ => .ok { height := 100, items := [c8Fragment] }

/-- **C8** counterexample: the produced element's `fontSize` field is the
`Math.round` of the transform norm (3), not the norm itself (2.5); the
unrounded value is kept in `height`. -/
theorem c8_counterexample :
    ratSqrt (c8Fragment.transform.c * c8Fragment.transform.c +
      c8Fragment.transform.d * c8Fragment.transform.d) = mkRat 5 2 ∧
    (extractTextElementsFromPage c8Oracle validBuffer 1).map
      (fun e => (e.fontSize, e.height)) = [((3 : ℚ), mkRat 5 2)] ∧
    (3 : ℚ) ≠ mkRat 5 2 := by
  refine ⟨?_, ?_, ?_⟩
  · with_unfolding_all decide
  · with_unfolding_all decide
  · with_unfolding_all decide

/-- **C8** (amended): `extractTextElementsFromPage` maps exactly the decoded
fragments with non-empty text, in order, to elements with
`position.x = tx[4]`, `position.y = pageHeight − tx[5]`,
`height = sqrt(tx[2]² + tx[3]²)`, `fontSize = Math.round` of that norm (not
the unrounded norm the claim states), `width` defaulting to 0 and `fontName`
to `"unknown"` when absent (or empty); any decode failure — or a detached
input buffer — yields `[]` without an escaping exception. -/
theorem c8_theorem :
    (∀ (oracle : DecodeOracle) (buf : ArrayBuffer) (n : Nat)
        (page : PageContent),
      buf.detached = false → oracle buf.bytes n = .ok page →
      extractTextElementsFromPage oracle buf n =
        (page.items.filter (fun f => f.str ≠ "")).map (fun f =>
          { text := f.str
            position := { x := f.transform.e, y := page.height - f.transform.f }
            width := match f.width with | none => 0 | some w => w
            height := ratSqrt (f.transform.c * f.transform.c +
              f.transform.d * f.transform.d)
            fontSize := (jsRound (ratSqrt (f.transform.c * f.transform.c +
              f.transform.d * f.transform.d)) : ℚ)
            fontName := match f.fontName with
              | none => "unknown"
              | some s => if s = "" then "unknown" else s })) ∧
    (∀ (oracle : DecodeOracle) (buf : ArrayBuffer) (n : Nat) (msg : String),
      buf.detached = false → oracle buf.bytes n = .error msg →
      extractTextElementsFromPage oracle buf n = []) ∧
    (∀ (oracle : DecodeOracle) (buf : ArrayBuffer) (n : Nat),
      buf.detached = true → extractTextElementsFromPage oracle buf n = []) := by
  refine ⟨?_, ?_, ?_⟩
  · intro oracle buf n page hdet hok
    have hclone : cloneArrayBuffer buf =
        .ok { bytes := buf.bytes, detached := false } := by
      simp [cloneArrayBuffer, hdet]
    simp only [extractTextElementsFromPage, hclone, hok]
    apply List.map_congr_left
    intro f _
    rfl
  · intro oracle buf n msg hdet hok
    have hclone : cloneArrayBuffer buf =
        .ok { bytes := buf.bytes, detached := false } := by
      simp [cloneArrayBuffer, hdet]
    simp only [extractTextElementsFromPage, hclone, hok]
  · intro oracle buf n hdet
    simp [extractTextElementsFromPage, cloneArrayBuffer, hdet]

/-- **C8** witness. -/
theorem c8_witness :
    validBuffer.detached = false ∧
    c8Oracle validBuffer.bytes 1 =
      .ok { height := 100, items := [c8Fragment] } ∧
    extractTextElementsFromPage c8Oracle validBuffer 1 =
      (([c8Fragment] : List Fragment).filter (fun f => f.str ≠ "")).map
        (fun f =>
          { text := f.str
            position := { x := f.transform.e, y := (100 : ℚ) - f.transform.f }
            width := match f.width with | none => 0 | some w => w
            height := ratSqrt (f.transform.c * f.transform.c +
              f.transform.d * f.transform.d)
            fontSize := (jsRound (ratSqrt (f.transform.c * f.transform.c +
              f.transform.d * f.transform.d)) : ℚ)
            fontName := match f.fontName with
              | none => "unknown"
              | some s => if s = "" then "unknown" else s }) :=
  ⟨rfl, rfl, c8_theorem.1 c8Oracle validBuffer 1
    { height := 100, items := [c8Fragment] } rfl rfl⟩

theorem bracket_ne_empty (pre mid post : String) (hpre : pre.length ≠ 0) :
    pre ++ mid ++ post ≠ "" := by
  apply append_ne_empty_left
  rw [String.length_append]
  omega

/-- **C9**: every result appended to the batch output has non-empty
`extractedText` — success results fall back to `"[No text found]"`, the
empty-region case uses its own placeholder, and every error path uses a
non-empty bracketed string. -/
theorem c9_theorem (oracle : DecodeOracle) (docs : List PDFDocument)
    (tags : List Tag) (r : ExtractionResult)
    (h : r ∈ extractTextFromAllDocuments oracle docs tags) :
    r.extractedText ≠ "" := by
  rcases mem_extractAllWith h with
    ⟨d, _, tag, _, hv, rfl⟩ | ⟨d, _, rs, hok, hmem⟩ | ⟨d, _, tag, _, msg, _, rfl⟩
  · exact bracket_ne_empty "[Error: " _ "]" (by decide)
  · have hrs : rs = processDocumentExtraction oracle d tags 1 := by
      simp only [Except.ok.injEq] at hok
      exact hok.symm
    subst hrs
    rcases mem_processDocumentExtraction hmem with
      ⟨tag, _, rfl⟩ | ⟨tag, _, rfl⟩ | ⟨tag, _, msg, rfl⟩ | ⟨tag, _, rfl⟩ |
      ⟨tag, _, elems, rfl⟩
    · show ("[Error processing document: No data available]" : String) ≠ ""
      decide
    · show ("[Error processing document: Buffer was detached]" : String) ≠ ""
      decide
    · exact bracket_ne_empty "[Error processing document: " _ "]" (by decide)
    · show ("[No text found in document - may be scanned/image-based PDF]" :
        String) ≠ ""
      decide
    · rcases processTagExtraction_spec d tag 1 elems with ⟨_, htext⟩ |
        ⟨_, hne, _⟩
      · rw [htext]; decide
      · exact hne
  · exact bracket_ne_empty "[Error processing document: " _ "]" (by decide)

/-- **C9** witness. -/
theorem c9_witness :
    noDataSampleResult ∈
      extractTextFromAllDocuments sampleOracle [docNoData] [wideTag] ∧
    noDataSampleResult.extractedText ≠ "" :=
  ⟨by decide, c9_theorem sampleOracle [docNoData] [wideTag] noDataSampleResult
    (by decide)⟩

/-- **C10**: no success result of the orchestrator, and no string returned
by `extractTextFromRegion` with cleanup enabled, contains a newline: the
cleanup's first rule folds every whitespace run (newlines included) into a
single space before the newline-collapsing rule runs. -/
theorem c10_theorem :
    (∀ (oracle : DecodeOracle) (docs : List PDFDocument) (tags : List Tag)
        (r : ExtractionResult),
      r ∈ extractTextFromAllDocuments oracle docs tags → r.errorCode = none →
      '\n' ∉ r.extractedText.data) ∧
    (∀ (oracle : DecodeOracle) (data : ArrayBuffer) (pageNumber : Nat)
        (region : Region) (options : TextProcessingOptions),
      options.cleanupText = true →
      '\n' ∉ (extractTextFromRegion oracle data pageNumber region
        options).data) := by
  constructor
  · intro oracle docs tags r h hnone
    rcases mem_extractAllWith h with
      ⟨d, _, tag, _, hv, rfl⟩ | ⟨d, _, rs, hok, hmem⟩ |
      ⟨d, _, tag, _, msg, _, rfl⟩
    · rcases validateDocumentData_some_cases d with hval | hval | hval
      · exact absurd hval hv
      · simp [validationFailureResult, hval] at hnone
      · simp [validationFailureResult, hval] at hnone
    · have hrs : rs = processDocumentExtraction oracle d tags 1 := by
        simp only [Except.ok.injEq] at hok
        exact hok.symm
      subst hrs
      rcases mem_processDocumentExtraction hmem with
        ⟨tag, _, rfl⟩ | ⟨tag, _, rfl⟩ | ⟨tag, _, msg, rfl⟩ | ⟨tag, _, rfl⟩ |
        ⟨tag, _, elems, rfl⟩
      · simp [errorResult] at hnone
      · simp [errorResult] at hnone
      · simp [errorResult] at hnone
      · simp [errorResult] at hnone
      · rcases processTagExtraction_spec d tag 1 elems with ⟨hec, _⟩ |
          ⟨_, _, hnl⟩
        · rw [hec] at hnone
          exact Option.noConfusion hnone
        · exact hnl
    · simp [errorResult] at hnone
  · intro oracle data pageNumber region options hclean
    rcases hc : cloneArrayBuffer data with msg | safe
    · have hmsg : msg = detachedBufferMessage := by
        unfold cloneArrayBuffer at hc
        split at hc
        · cases hc; rfl
        · cases hc
      subst hmsg
      simp only [extractTextFromRegion, hc]
      decide
    · simp only [extractTextFromRegion, hc, hclean, if_true]
      split
      · split
        · decide
        · decide
      · exact newline_not_mem_jsTrim (newline_not_mem_cleanupExtractedText _)

/-- The success record the sample batch produces for `wideTag`. -/
def sampleSuccessResult : ExtractionResult :=
  processTagExtraction docValid wideTag 1
    (extractTextElementsFromPage sampleOracle
      { bytes := validBuffer.bytes, detached := false } 1)

/-- **C10** witness. -/
theorem c10_witness :
    sampleSuccessResult ∈
      extractTextFromAllDocuments sampleOracle [docValid] [wideTag] ∧
    sampleSuccessResult.errorCode = none ∧
    '\n' ∉ sampleSuccessResult.extractedText.data ∧
    ({} : TextProcessingOptions).cleanupText = true ∧
    '\n' ∉ (extractTextFromRegion sampleOracle validBuffer 1 wideTag.region
      {}).data :=
  ⟨by with_unfolding_all decide, by with_unfolding_all decide,
   c10_theorem.1 sampleOracle [docValid] [wideTag] sampleSuccessResult
     (by with_unfolding_all decide) (by with_unfolding_all decide),
   rfl, c10_theorem.2 sampleOracle validBuffer 1 wideTag.region {} rfl⟩

def c6ElemA : TextElement :=
  { text := "L1", position := ⟨0, 0⟩, width := 5, height := 10,
    fontSize := 10, fontName := "f" }

def c6ElemB : TextElement :=
  { text := "L2", position := ⟨0, 15⟩, width := 5, height := 10,
    fontSize := 10, fontName := "f" }

/-- **C6** witness: two elements with `yDiff = 15` and `height = 10` get a
line break, not a paragraph break. -/
theorem c6_witness :
    |c6ElemB.position.y - c6ElemA.position.y| = 15 ∧ c6ElemB.height = 10 ∧
    combineElements [c6ElemA, c6ElemB] = c6ElemA.text ++ "\n" ++ c6ElemB.text :=
  ⟨by with_unfolding_all decide, rfl,
   c6_theorem.2.2 c6ElemA c6ElemB (by with_unfolding_all decide) rfl⟩
